import Mathlib

/-!
Verification development for the Report Gateway service (src/app.py).

The service is a single Flask application with three routes: a static index,
GET /api/health, and POST /api/analyze.  The code is shallowly embedded
below: Python values that can appear in a parsed JSON body are the
inductive `PyVal`; every request handler becomes a pure Lean function from
the request data (plus the process configuration and the outcome of the one
outbound generation-API call) to an `HResp`.  Machinery that the handlers
use from the Python standard library (regular-expression search for the
fence pattern, `str.strip`, `json.loads`, truthiness) is embedded
explicitly and faithfully for the fragment the handlers exercise.
-/

/-- A Python value as produced by parsing JSON (plus `None`), used both for
request bodies and response bodies. -/
inductive PyVal where
  | vNone : PyVal
  | vBool (b : Bool) : PyVal
  | vInt (n : Int) : PyVal
  | vStr (s : String) : PyVal
  | vList (xs : List PyVal) : PyVal
  | vDict (fields : List (String × PyVal)) : PyVal

/-- The observable outcome of one Flask request: either a `jsonify(body), status`
pair, or an exception escaping the handler (which Flask turns into its own
internal-server-error page, not a handler-controlled JSON body). -/
inductive HResp where
  | json (body : PyVal) (status : Nat) : HResp
  | crash (excType : String) : HResp

/-- The status code of a response, when the handler returned one. -/
def statusOf : HResp → Option Nat
  | HResp.json _ s => Option.some s
  | HResp.crash _ => Option.none

/-- Process configuration read from the environment at startup:
`ACCESS_TOKEN` (with its insecure default) and the optional `API_KEY`. -/
structure Config where
  accessToken : String
  apiKey : Option String

/-- The outcome of the single outbound `client.models.generate_content` call:
either a response object whose `.text` may be `None`, or a raised exception
with its `str(e)` message. -/
inductive Upstream where
  | success (text : Option String) : Upstream
  | failure (msg : String) : Upstream

/-- Python whitespace for `\s` in the `re` module and for `str.strip`
(ASCII fragment: space, tab, newline, carriage return, vertical tab,
form feed). -/
def pythonWhitespace (c : Char) : Bool :=
  c = ' ' || c = '\t' || c = '\n' || c = '\r' || c = '\x0b' || c = '\x0c'

/-- `str.strip()` on a character list: drop whitespace from both ends. -/
def pyStrip (l : List Char) : List Char :=
  ((l.dropWhile pythonWhitespace).reverse.dropWhile pythonWhitespace).reverse

/-- `str.strip()` at the `String` level. -/
def stripStr (s : String) : String :=
  String.mk (pyStrip s.toList)

/-- The literal opening of the fence pattern in `clean_json_text`:
the regex is `r"` followed by three backticks, `json\s*(.*?)\s*`, three
backticks and `"`, searched with `re.DOTALL`.  The pattern begins with the
seven literal characters of a lowercase json fence opener. -/
def fenceOpen : List Char := "```json".toList

/-- Three backticks: the literal closing delimiter of the fence pattern. -/
def fenceClose : List Char := "```".toList

/-- First index at which `pat` occurs in `l`, if any. -/
def findSub (pat : List Char) : List Char → Option Nat
  | [] => if pat = [] then Option.some 0 else Option.none
  | c :: rest =>
    if pat.isPrefixOf (c :: rest) then Option.some 0
    else (findSub pat rest).map (· + 1)

/-- Group 1 of the fence regex, matched against the text that follows the
literal opener: the leading greedy `\s*` takes the maximal whitespace run,
the lazy `(.*?)` then grows minimally until the greedy `\s*` followed by
the closing backticks can match.  Equivalently: drop the whitespace run,
find the first closing delimiter, and peel the maximal whitespace run that
immediately precedes it off the captured interior.  Returns `none` when no
closing delimiter exists, in which case the regex engine abandons this
start position. -/
def extractGroup (s : List Char) : Option (List Char) :=
  let s1 := s.dropWhile pythonWhitespace
  match findSub fenceClose s1 with
  | Option.none => Option.none
  | Option.some p =>
    let pre := s1.take p
    let w := (pre.reverse.takeWhile pythonWhitespace).length
    Option.some (s1.take (p - w))

/-- `re.search` of the fence pattern with `re.DOTALL`: scan start positions
left to right; at each position the pattern requires the literal opener,
then the interior as captured by `extractGroup`.  Returns group 1 of the
leftmost match. -/
def reSearchFence : List Char → Option (List Char)
  | [] => Option.none
  | c :: rest =>
    if fenceOpen.isPrefixOf (c :: rest) then
      match extractGroup ((c :: rest).drop 7) with
      | Option.some g => Option.some g
      | Option.none => reSearchFence rest
    else reSearchFence rest

/-- Whether the literal fence opener occurs anywhere in the text; mirrors
the scan structure of `reSearchFence`. -/
def hasFenceOpener : List Char → Bool
  | [] => false
  | c :: rest => fenceOpen.isPrefixOf (c :: rest) || hasFenceOpener rest

/-- The backtick character, taken from the closing delimiter. -/
def backtickChar : Char :=
  match fenceClose with
  | c :: _ => c
  | [] => ' '

/-- Whether a character list starts with a non-whitespace character
(false for the empty list). -/
def headNotWs (l : List Char) : Bool :=
  match l.head? with
  | Option.some c => !pythonWhitespace c
  | Option.none => false

/-- Whether a character list ends with a non-whitespace character
(false for the empty list). -/
def lastNotWs (l : List Char) : Bool :=
  headNotWs l.reverse

/-- `clean_json_text` from src/app.py lines 24-32: empty (falsy) text maps
to the empty string; otherwise search for the fenced-json pattern and
return its captured interior, or the whole text stripped when the pattern
does not match. -/
def clean_json_text (text : String) : String :=
  if text = "" then ""
  else
    match reSearchFence text.toList with
    | Option.some g => String.mk g
    | Option.none => String.mk (pyStrip text.toList)

/-- JSON whitespace as skipped by the Python `json` decoder: space, tab,
newline, carriage return (strictly narrower than `str.strip`). -/
def jsonWs (c : Char) : Bool :=
  c = ' ' || c = '\t' || c = '\n' || c = '\r'

/-- Value of one hexadecimal digit, for string escapes. -/
def hexVal (c : Char) : Option Nat :=
  if '0' ≤ c ∧ c ≤ '9' then Option.some (c.toNat - 48)
  else if 'a' ≤ c ∧ c ≤ 'f' then Option.some (c.toNat - 87)
  else if 'A' ≤ c ∧ c ≤ 'F' then Option.some (c.toNat - 55)
  else Option.none

/-- The single-character JSON string escapes. -/
def escMap (c : Char) : Option Char :=
  if c = '\"' then Option.some '\"'
  else if c = '\\' then Option.some '\\'
  else if c = '/' then Option.some '/'
  else if c = 'b' then Option.some '\x08'
  else if c = 'f' then Option.some '\x0c'
  else if c = 'n' then Option.some '\n'
  else if c = 'r' then Option.some '\r'
  else if c = 't' then Option.some '\t'
  else Option.none

/-- Body of a JSON string literal, after the opening quote: returns the
decoded content and the remainder after the closing quote.  Surrogate
pairing of `\u` escapes is not modelled (no input in this development uses
them). -/
def parseStringBody : List Char → Option (List Char × List Char)
  | [] => Option.none
  | c :: rest =>
    if c = '\"' then Option.some ([], rest)
    else if c = '\\' then
      match rest with
      | [] => Option.none
      | e :: rest2 =>
        if e = 'u' then
          match rest2 with
          | a :: b :: c2 :: d :: rest3 =>
            match hexVal a, hexVal b, hexVal c2, hexVal d with
            | Option.some x1, Option.some x2, Option.some x3, Option.some x4 =>
              (parseStringBody rest3).map
                (fun p => (Char.ofNat (((x1 * 16 + x2) * 16 + x3) * 16 + x4) :: p.1, p.2))
            | _, _, _, _ => Option.none
          | _ => Option.none
        else
          match escMap e with
          | Option.some ec => (parseStringBody rest2).map (fun p => (ec :: p.1, p.2))
          | Option.none => Option.none
    else if c.toNat < 32 then Option.none
    else (parseStringBody rest).map (fun p => (c :: p.1, p.2))

/-- A JSON integer literal starting at the head of the list: optional minus
sign, then digits with the no-leading-zero rule.  Fractional and exponent
parts (floats) are not modelled; an input using them fails to parse (no
input in this development uses them). -/
def parseNumber (l : List Char) : Option (PyVal × List Char) :=
  let core := fun (ds : List Char) (rest : List Char) (sign : Int) =>
    match ds with
    | [] => Option.none
    | d0 :: drest =>
      if d0 = '0' ∧ drest ≠ [] then Option.none
      else
        match rest with
        | r :: _ => if r = '.' ∨ r = 'e' ∨ r = 'E' then Option.none
                    else Option.some (PyVal.vInt (sign * Int.ofNat (String.mk ds).toNat!), rest)
        | [] => Option.some (PyVal.vInt (sign * Int.ofNat (String.mk ds).toNat!), rest)
  match l with
  | '-' :: rest => core (rest.takeWhile Char.isDigit) (rest.dropWhile Char.isDigit) (-1)
  | _ => core (l.takeWhile Char.isDigit) (l.dropWhile Char.isDigit) 1

mutual

/-- One JSON value, skipping leading JSON whitespace; returns the value and
the unconsumed remainder.  Fuelled recursion; the fuel supplied by
`jsonLoads` exceeds any possible nesting. -/
def parseValue : Nat → List Char → Option (PyVal × List Char)
  | 0, _ => Option.none
  | Nat.succ fuel, l0 =>
    match l0.dropWhile jsonWs with
    | [] => Option.none
    | c :: rest =>
      if c = '\x7b' then
        match rest.dropWhile jsonWs with
        | '\x7d' :: r2 => Option.some (PyVal.vDict [], r2)
        | _ => parseMembers fuel rest []
      else if c = '[' then
        match rest.dropWhile jsonWs with
        | ']' :: r2 => Option.some (PyVal.vList [], r2)
        | _ => parseElements fuel rest []
      else if c = '\"' then
        (parseStringBody rest).map (fun p => (PyVal.vStr (String.mk p.1), p.2))
      else if c = 't' then
        if "rue".toList.isPrefixOf rest then Option.some (PyVal.vBool true, rest.drop 3)
        else Option.none
      else if c = 'f' then
        if "alse".toList.isPrefixOf rest then Option.some (PyVal.vBool false, rest.drop 4)
        else Option.none
      else if c = 'n' then
        if "ull".toList.isPrefixOf rest then Option.some (PyVal.vNone, rest.drop 3)
        else Option.none
      else if c = '-' ∨ c.isDigit then parseNumber (c :: rest)
      else Option.none

/-- Members of a JSON object, positioned just after the opening brace or a
comma; `acc` holds the fields already parsed in insertion order. -/
def parseMembers : Nat → List Char → List (String × PyVal) → Option (PyVal × List Char)
  | 0, _, _ => Option.none
  | Nat.succ fuel, l, acc =>
    match l.dropWhile jsonWs with
    | '\"' :: rest =>
      match parseStringBody rest with
      | Option.some (key, r1) =>
        match r1.dropWhile jsonWs with
        | ':' :: r2 =>
          match parseValue fuel r2 with
          | Option.some (v, r3) =>
            match r3.dropWhile jsonWs with
            | ',' :: r4 => parseMembers fuel r4 (acc ++ [(String.mk key, v)])
            | '\x7d' :: r4 => Option.some (PyVal.vDict (acc ++ [(String.mk key, v)]), r4)
            | _ => Option.none
          | Option.none => Option.none
        | _ => Option.none
      | Option.none => Option.none
    | _ => Option.none

/-- Elements of a JSON array, positioned just after the opening bracket or
a comma. -/
def parseElements : Nat → List Char → List PyVal → Option (PyVal × List Char)
  | 0, _, _ => Option.none
  | Nat.succ fuel, l, acc =>
    match parseValue fuel l with
    | Option.some (v, r1) =>
      match r1.dropWhile jsonWs with
      | ',' :: r2 => parseElements fuel r2 (acc ++ [v])
      | ']' :: r2 => Option.some (PyVal.vList (acc ++ [v]), r2)
      | _ => Option.none
    | Option.none => Option.none

end

/-- `json.loads`: parse exactly one JSON document, tolerating surrounding
JSON whitespace; `none` models a raised `json.JSONDecodeError`. -/
def jsonLoads (s : String) : Option PyVal :=
  match parseValue (s.length + 2) s.toList with
  | Option.some (v, rest) =>
    if rest.dropWhile jsonWs = [] then Option.some v else Option.none
  | Option.none => Option.none

/-- Python truthiness (`if not x`) for the values that can arrive in a
parsed JSON body: `None`, `False`, `0`, the empty string, the empty list
and the empty dict are falsy. -/
def truthy : PyVal → Bool
  | PyVal.vNone => false
  | PyVal.vBool b => b
  | PyVal.vInt n => decide (n ≠ 0)
  | PyVal.vStr s => !s.isEmpty
  | PyVal.vList xs => !xs.isEmpty
  | PyVal.vDict fs => !fs.isEmpty

/-- `data.get(key)`: the value under `key`, or `None` when absent.  The
request body is modelled as the field list of a parsed JSON object (a
non-object body would make `data.get` raise, a path no claim exercises). -/
def dictGet (data : List (String × PyVal)) (key : String) : PyVal :=
  match data.lookup key with
  | Option.some v => v
  | Option.none => PyVal.vNone

/-- `data.get(key, default)`. -/
def dictGetD (data : List (String × PyVal)) (key : String) (dflt : PyVal) : PyVal :=
  match data.lookup key with
  | Option.some v => v
  | Option.none => dflt

/-- Python falsiness of the `API_KEY` environment read: unset (`None`) or
the empty string. -/
def apiKeyFalsy : Option String → Bool
  | Option.none => true
  | Option.some s => s.isEmpty

/-- The JSON error body `jsonify({"error": msg})` used by every error
return in the handler. -/
def errObj (msg : String) : PyVal :=
  PyVal.vDict [("error", PyVal.vStr msg)]

/-- Whether `pat` occurs in `s` (Python `pat in s`). -/
def containsSubStr (pat s : String) : Bool :=
  (findSub pat.toList s.toList).isSome

/-- Modelled from the spec: the text of the `json.JSONDecodeError` raised
by `json.loads` comes from the Python standard library and is not
determined by this repository; it is represented by this opaque-in-spirit
but concrete placeholder.  No claim depends on its contents. -/
def jsonDecodeErrorText : String := "JSONDecodeError"

/-- The POST /api/analyze handler (src/app.py lines 57-149), as a function
of the configuration, the `Authorization` header, the parsed JSON body and
the outcome of the single outbound generation call.

Control flow mirrors the source: the token comparison happens first, and
on mismatch the warning log evaluates `token[:4]`, which raises `TypeError`
when the header is absent (`token is None`) -- that exception is raised
before the `try` block and escapes the handler.  Inside the `try`: the
`API_KEY` check, then `context` and `diagnosticMode` retrieval, the
falsy-`context` rejection, the diagnostic branch (whose inner `try`
catches every exception including JSON decode failures), and the normal
branch (whose inner `try` only covers parsing, so an upstream exception
reaches the outer handler, which special-cases messages containing
\x22403\x22). -/
def analyze (cfg : Config) (auth : Option String) (data : List (String × PyVal))
    (up : Upstream) : HResp :=
  if auth ≠ Option.some cfg.accessToken then
    match auth with
    | Option.none => HResp.crash "TypeError"
    | Option.some _ => HResp.json (errObj "Unauthorized Access Denied") 401
  else
    if apiKeyFalsy cfg.apiKey then
      HResp.json (errObj "Server Configuration Error: API_KEY Missing") 500
    else
      let context := dictGet data "context"
      let isDiagnostic := dictGetD data "diagnosticMode" (PyVal.vBool false)
      if !truthy context then HResp.json (errObj "Data Context Missing") 400
      else if truthy isDiagnostic then
        match up with
        | Upstream.success txt =>
          match jsonLoads (clean_json_text (txt.getD "")) with
          | Option.some v => HResp.json v 200
          | Option.none =>
            HResp.json (errObj ("Diagnostic Probe Failed: " ++ jsonDecodeErrorText)) 500
        | Upstream.failure msg =>
          HResp.json (errObj ("Diagnostic Probe Failed: " ++ msg)) 500
      else
        match up with
        | Upstream.failure msg =>
          if containsSubStr "403" msg then
            HResp.json (errObj "API Key Invalid or Quota Exceeded") 500
          else HResp.json (errObj ("Intelligence Failure: " ++ msg)) 500
        | Upstream.success txt =>
          let cleaned := clean_json_text (txt.getD "")
          if cleaned = "" then
            HResp.json (errObj "Failed to parse AI response. Please try again.") 500
          else
            match jsonLoads cleaned with
            | Option.some v => HResp.json v 200
            | Option.none =>
              HResp.json (errObj "Failed to parse AI response. Please try again.") 500

/-- Python `int()` applied to a nonnegative-or-negative rational elapsed
time: truncation toward zero. -/
def pyTrunc (q : ℚ) : Int :=
  if 0 ≤ q then ⌊q⌋ else ⌈q⌉

/-- The static version identifier `SERVER_VERSION`. -/
def SERVER_VERSION : String := "1.1.0"

/-- `uptime_seconds` as computed by the health handler:
`int(time.time() - START_TIME)`. -/
def uptimeSeconds (startTime now : ℚ) : Int :=
  pyTrunc (now - startTime)

/-- The GET /api/health handler (src/app.py lines 45-55), as a function of
the process start time and the current time (both rationals standing for
the clock readings). -/
def health_check (startTime now : ℚ) : HResp :=
  HResp.json (PyVal.vDict
    [("status", PyVal.vStr "online"),
     ("message", PyVal.vStr "Server is running"),
     ("version", PyVal.vStr SERVER_VERSION),
     ("uptime_seconds", PyVal.vInt (uptimeSeconds startTime now))]) 200

/-- Modelled from the spec: src/app.py contains no POST /api/verify route
(the spec documents it in the HTTP-surface table; it belongs to the other
near-duplicate variant of this service, which is not under src/).  Per the
spec: no authentication, body `\x7btoken\x7d`, response
`\x7bvalid: true\x7d` with 200 when the token matches the configured
secret, `\x7bvalid: false\x7d` with 401 otherwise. -/
def verify (cfg : Config) (data : List (String × PyVal)) : HResp :=
  match dictGet data "token" with
  | PyVal.vStr t =>
    if t = cfg.accessToken then HResp.json (PyVal.vDict [("valid", PyVal.vBool true)]) 200
    else HResp.json (PyVal.vDict [("valid", PyVal.vBool false)]) 401
  | _ => HResp.json (PyVal.vDict [("valid", PyVal.vBool false)]) 401

/-- Whether a response body is a JSON object carrying a string under the
given key. -/
def hasStrField (v : PyVal) (key : String) : Bool :=
  match v with
  | PyVal.vDict fs =>
    match fs.lookup key with
    | Option.some (PyVal.vStr _) => true
    | _ => false
  | _ => false

/-- Auxiliary: when the literal lowercase fence opener occurs nowhere in
the text, the regex search finds no match. -/
theorem reSearchFence_eq_none {l : List Char} (h : hasFenceOpener l = false) :
    reSearchFence l = Option.none := by
  induction l with
  | nil => rfl
  | cons c rest ih =>
    simp only [hasFenceOpener, Bool.or_eq_false_iff] at h
    simp only [reSearchFence, h.1, Bool.false_eq_true, if_false]
    exact ih h.2

/-- C8: for every upstream response text containing no (lowercase) fence
opener, the extraction is exactly `str.strip`: `clean_json_text s`
equals `s` stripped of surrounding whitespace.  On the unfenced raw JSON
response of the spec, the extraction therefore parses to the same object
as parsing the input directly, namely the two-field object. -/
theorem clean_json_text_no_fence_strip (s : String)
    (h : hasFenceOpener s.toList = false) :
    clean_json_text s = stripStr s ∧
    jsonLoads (clean_json_text "\x7b\"emailText\":\"A\",\"htmlDashboard\":\"B\"\x7d") =
      jsonLoads "\x7b\"emailText\":\"A\",\"htmlDashboard\":\"B\"\x7d" ∧
    jsonLoads "\x7b\"emailText\":\"A\",\"htmlDashboard\":\"B\"\x7d" =
      Option.some (PyVal.vDict
        [("emailText", PyVal.vStr "A"), ("htmlDashboard", PyVal.vStr "B")]) := by
  refine ⟨?_, rfl, rfl⟩
  by_cases hs : s = ""
  · subst hs; rfl
  · unfold clean_json_text
    rw [if_neg hs, reSearchFence_eq_none h]
    rfl

/-- Witness for C8 at a concrete unfenced input. -/
theorem clean_json_text_no_fence_strip_witness :
    clean_json_text "  \x7b\"a\":1\x7d  " = stripStr "  \x7b\"a\":1\x7d  " ∧
    jsonLoads (clean_json_text "\x7b\"emailText\":\"A\",\"htmlDashboard\":\"B\"\x7d") =
      jsonLoads "\x7b\"emailText\":\"A\",\"htmlDashboard\":\"B\"\x7d" ∧
    jsonLoads "\x7b\"emailText\":\"A\",\"htmlDashboard\":\"B\"\x7d" =
      Option.some (PyVal.vDict
        [("emailText", PyVal.vStr "A"), ("htmlDashboard", PyVal.vStr "B")]) :=
  clean_json_text_no_fence_strip "  \x7b\"a\":1\x7d  " rfl

/-- C7: on the specific fenced upstream response of the spec, the
extraction removes the fence and trims the surrounding whitespace, and
parsing yields exactly the two-field object. -/
theorem clean_json_text_fenced_example :
    clean_json_text "```json\n\x7b\"emailText\":\"A\",\"htmlDashboard\":\"<b>B</b>\"\x7d\n```" =
      "\x7b\"emailText\":\"A\",\"htmlDashboard\":\"<b>B</b>\"\x7d" ∧
    jsonLoads (clean_json_text
        "```json\n\x7b\"emailText\":\"A\",\"htmlDashboard\":\"<b>B</b>\"\x7d\n```") =
      Option.some (PyVal.vDict
        [("emailText", PyVal.vStr "A"), ("htmlDashboard", PyVal.vStr "<b>B</b>")]) :=
  ⟨rfl, rfl⟩

/-- C6 counterexample: the fence stripping is case-sensitive and specific
to the lowercase tag json; a fence opened with the uppercase tag JSON or
with the tag html is not stripped (the whole text, fence included, is
returned), contrary to the claimed case and language-tag tolerance. -/
theorem clean_json_text_case_counterexample :
    clean_json_text "```JSON\n\x7b\x7d\n```" = "```JSON\n\x7b\x7d\n```" ∧
    clean_json_text "```JSON\n\x7b\x7d\n```" ≠ "\x7b\x7d" ∧
    clean_json_text "```html\n<div>1</div>\n```" = "```html\n<div>1</div>\n```" ∧
    clean_json_text "```html\n<div>1</div>\n```" ≠ "<div>1</div>" :=
  ⟨rfl, by decide, rfl, by decide⟩

/-- Auxiliary: dropping while a predicate holds skips a block that
satisfies it wholesale. -/
theorem dropWhile_append_all {p : Char → Bool} (w l : List Char)
    (h : ∀ c ∈ w, p c = true) :
    List.dropWhile p (w ++ l) = List.dropWhile p l := by
  induction w with
  | nil => rfl
  | cons c w ih =>
    have hc := h c (List.mem_cons_self c w)
    simp only [List.cons_append, List.dropWhile_cons, hc, if_true]
    exact ih (fun d hd => h d (List.mem_cons_of_mem c hd))

/-- Auxiliary: taking while a predicate holds keeps a block that satisfies
it wholesale. -/
theorem takeWhile_append_all {p : Char → Bool} (w l : List Char)
    (h : ∀ c ∈ w, p c = true) :
    List.takeWhile p (w ++ l) = w ++ List.takeWhile p l := by
  induction w with
  | nil => rfl
  | cons c w ih =>
    have hc := h c (List.mem_cons_self c w)
    simp only [List.cons_append, List.takeWhile_cons, hc, if_true]
    rw [ih (fun d hd => h d (List.mem_cons_of_mem c hd))]

/-- Auxiliary: in a backtick-free list followed by the closing delimiter,
the first closing delimiter sits exactly at the end of the list. -/
theorem findSub_append_fenceClose (l : List Char)
    (h : ∀ c ∈ l, ¬ c = backtickChar) :
    findSub fenceClose (l ++ fenceClose) = Option.some l.length := by
  induction l with
  | nil => rfl
  | cons c rest ih =>
    have hc := h c (List.mem_cons_self c rest)
    have hpre : fenceClose.isPrefixOf (c :: (rest ++ fenceClose)) = false := by
      rw [show fenceClose = backtickChar :: "``".toList from rfl]
      simp only [List.isPrefixOf]
      rw [beq_eq_false_iff_ne.mpr (fun hh => hc hh.symm)]
      rw [Bool.false_and]
    rw [List.cons_append]
    simp only [findSub, hpre, Bool.false_eq_true, if_false]
    rw [ih (fun d hd => h d (List.mem_cons_of_mem c hd))]
    rfl

/-- Auxiliary: the regex group capture on a fence interior made of a
whitespace run, a payload that is backtick-free and has non-whitespace
ends, a whitespace run and the closing delimiter is exactly the payload:
the leading greedy whitespace, lazy capture and trailing greedy whitespace
resolve to the payload alone. -/
theorem extractGroup_fenced (w1 inner w2 : List Char)
    (hw1 : ∀ c ∈ w1, pythonWhitespace c = true)
    (hw2 : ∀ c ∈ w2, pythonWhitespace c = true)
    (hnb : ∀ c ∈ inner, ¬ c = backtickChar)
    (hhead : headNotWs inner = true)
    (hlast : lastNotWs inner = true) :
    extractGroup (w1 ++ (inner ++ (w2 ++ fenceClose))) = Option.some inner := by
  have hmem : ∀ c ∈ inner ++ w2, ¬ c = backtickChar := by
    intro c hcmem
    rcases List.mem_append.mp hcmem with h1 | h2
    · exact hnb c h1
    · intro he
      subst he
      exact absurd (hw2 _ h2) (by decide)
  have hdw : List.dropWhile pythonWhitespace (w1 ++ (inner ++ (w2 ++ fenceClose))) =
      inner ++ (w2 ++ fenceClose) := by
    rw [dropWhile_append_all w1 _ hw1]
    cases hi : inner with
    | nil =>
      rw [hi] at hhead
      exact absurd hhead (by decide)
    | cons c r =>
      have hcw : pythonWhitespace c = false := by
        rw [hi] at hhead
        simpa [headNotWs] using hhead
      simp [List.dropWhile_cons, hcw]
  have hwlen : ((inner ++ w2).reverse.takeWhile pythonWhitespace).length = w2.length := by
    rw [List.reverse_append]
    rw [takeWhile_append_all w2.reverse _ (fun c hc => hw2 c (List.mem_reverse.mp hc))]
    have hz : List.takeWhile pythonWhitespace inner.reverse = [] := by
      cases hr : inner.reverse with
      | nil => rfl
      | cons c r =>
        have hcw : pythonWhitespace c = false := by
          have hl := hlast
          rw [lastNotWs, hr] at hl
          simpa [headNotWs] using hl
        simp [List.takeWhile_cons, hcw]
    rw [hz, List.append_nil, List.length_reverse]
  simp only [extractGroup]
  rw [hdw, ← List.append_assoc, findSub_append_fenceClose _ hmem]
  simp only [Option.some.injEq]
  rw [List.take_left, hwlen, List.length_append, Nat.add_sub_cancel]
  rw [List.append_assoc]
  exact List.take_left inner (w2 ++ fenceClose)

/-- Auxiliary: a text that begins with the literal fence opener makes the
regex search succeed at position zero with the group computed on the
remainder. -/
theorem reSearchFence_fenced (s g : List Char)
    (h : extractGroup s = Option.some g) :
    reSearchFence (fenceOpen ++ s) = Option.some g := by
  have hpre : fenceOpen.isPrefixOf (backtickChar :: ("``json".toList ++ s)) = true := by
    rw [show backtickChar :: ("``json".toList ++ s) = fenceOpen ++ s from rfl]
    exact List.isPrefixOf_iff_prefix.mpr (List.prefix_append fenceOpen s)
  rw [show fenceOpen ++ s = backtickChar :: ("``json".toList ++ s) from rfl]
  simp only [reSearchFence, hpre, if_true]
  rw [show (backtickChar :: ("``json".toList ++ s)).drop 7 = s from rfl]
  rw [h]

/-- C6 amended: for every upstream response text, the extraction strips a
fence only when it is opened with exactly the lowercase tag json: any
fenced text whose payload is backtick-free with non-whitespace ends is
reduced to its payload, whitespace inside the fence being tolerated; and
whenever the lowercase opener occurs nowhere (so for any fence tagged
JSON or html, as instantiated below) nothing is stripped beyond
surrounding whitespace: the whole response is treated as raw text. -/
theorem clean_json_text_fence_lowercase_only :
    (∀ w1 w2 inner : String,
      (∀ c ∈ w1.toList, pythonWhitespace c = true) →
      (∀ c ∈ w2.toList, pythonWhitespace c = true) →
      (∀ c ∈ inner.toList, ¬ c = backtickChar) →
      headNotWs inner.toList = true →
      lastNotWs inner.toList = true →
      clean_json_text ("```json" ++ w1 ++ inner ++ w2 ++ "```") = inner) ∧
    (∀ s : String, hasFenceOpener s.toList = false → clean_json_text s = stripStr s) ∧
    clean_json_text "```JSON\n\x7b\x7d\n```" = stripStr "```JSON\n\x7b\x7d\n```" ∧
    clean_json_text "```html\n<div>1</div>\n```" = stripStr "```html\n<div>1</div>\n```" := by
  refine ⟨?_, ?_, rfl, rfl⟩
  · intro w1 w2 inner hw1 hw2 hnb hhead hlast
    have hL : ("```json" ++ w1 ++ inner ++ w2 ++ "```").toList =
        fenceOpen ++ (w1.toList ++ (inner.toList ++ (w2.toList ++ fenceClose))) := by
      rw [show ("```json" ++ w1 ++ inner ++ w2 ++ "```").toList =
        (((fenceOpen ++ w1.toList) ++ inner.toList) ++ w2.toList) ++ fenceClose from rfl]
      simp [List.append_assoc]
    have hne : ("```json" ++ w1 ++ inner ++ w2 ++ "```") ≠ "" := by
      intro he
      have hdata : ("```json" ++ w1 ++ inner ++ w2 ++ "```").toList = "".toList := by
        rw [he]
      rw [hL] at hdata
      rcases List.append_eq_nil.mp hdata with ⟨h1, _⟩
      exact absurd h1 (by decide)
    unfold clean_json_text
    rw [if_neg hne, hL]
    rw [reSearchFence_fenced _ inner.toList
      (extractGroup_fenced w1.toList inner.toList w2.toList hw1 hw2 hnb hhead hlast)]
    rfl
  · intro s h
    by_cases hs : s = ""
    · subst hs; rfl
    · unfold clean_json_text
      rw [if_neg hs, reSearchFence_eq_none h]
      rfl

/-- Witness for the amended C6: a concrete lowercase fence stripped to its
payload, and a concrete fence-free text reduced to its strip. -/
theorem clean_json_text_fence_lowercase_only_witness :
    clean_json_text ("```json" ++ "\n" ++ "\x7b\"a\":1\x7d" ++ "\n" ++ "```") =
      "\x7b\"a\":1\x7d" ∧
    clean_json_text "  \x7b\"b\":2\x7d " = stripStr "  \x7b\"b\":2\x7d " :=
  ⟨clean_json_text_fence_lowercase_only.1 "\n" "\n" "\x7b\"a\":1\x7d"
      (by decide) (by decide) (by decide) rfl rfl,
    clean_json_text_fence_lowercase_only.2.1 "  \x7b\"b\":2\x7d " rfl⟩

/-- C1: with the Authorization header absent, the handler evaluates
`token[:4]` on `None` inside the warning log and raises `TypeError` before
reaching its `try` block, so the request ends as an unhandled exception
(a framework 500), not as the claimed 401 JSON error; with a present but
wrong token the claimed 401 generic body is returned. -/
theorem analyze_auth_failure_behavior :
    analyze (Config.mk "yuKVek24" (Option.some "k")) Option.none
        [("context", PyVal.vStr "x")] (Upstream.success (Option.some "t")) =
      HResp.crash "TypeError" ∧
    analyze (Config.mk "yuKVek24" (Option.some "k")) (Option.some "wrong-token")
        [("context", PyVal.vStr "x")] (Upstream.success (Option.some "t")) =
      HResp.json (errObj "Unauthorized Access Denied") 401 :=
  ⟨rfl, rfl⟩

/-- C2 counterexample: an authorized, well-formed request whose upstream
response is the one-field JSON object yields a 200 whose body lacks the
htmlDashboard field: the handler performs no shape validation on success. -/
theorem analyze_success_partial_body_counterexample :
    analyze (Config.mk "yuKVek24" (Option.some "k")) (Option.some "yuKVek24")
        [("context", PyVal.vStr "inventory")]
        (Upstream.success (Option.some "\x7b\"emailText\":\"A\"\x7d")) =
      HResp.json (PyVal.vDict [("emailText", PyVal.vStr "A")]) 200 ∧
    hasStrField (PyVal.vDict [("emailText", PyVal.vStr "A")]) "htmlDashboard" = false :=
  ⟨rfl, rfl⟩

/-- C2 amended: a normal-mode request returns 200 with body `v` exactly
when the cleaned upstream text parses as JSON to `v`; both fields are
present as strings in the success body exactly when they are present in
that parse -- the handler itself enforces no two-field shape. -/
theorem analyze_success_body_is_parsed_upstream (cfg : Config) (tok : String)
    (data : List (String × PyVal)) (txt : String) (v : PyVal)
    (htok : tok = cfg.accessToken)
    (hkey : apiKeyFalsy cfg.apiKey = false)
    (hctx : truthy (dictGet data "context") = true)
    (hdiag : truthy (dictGetD data "diagnosticMode" (PyVal.vBool false)) = false) :
    analyze cfg (Option.some tok) data (Upstream.success (Option.some txt)) =
        HResp.json v 200 ↔
      jsonLoads (clean_json_text txt) = Option.some v := by
  subst htok
  simp only [analyze, ne_eq, not_true_eq_false, if_false, hkey, Bool.false_eq_true, hctx,
    Bool.not_true, hdiag, Option.getD_some]
  by_cases hc : clean_json_text txt = ""
  · rw [if_pos hc, hc]
    constructor
    · intro h; injection h with h1 h2; exact absurd h2 (by decide)
    · intro h; exact Option.noConfusion
        (show (Option.none : Option PyVal) = Option.some v from h)
  · rw [if_neg hc]
    cases hj : jsonLoads (clean_json_text txt) with
    | none =>
      constructor
      · intro h; injection h with h1 h2; exact absurd h2 (by decide)
      · intro h; exact Option.noConfusion h
    | some w =>
      constructor
      · intro h; injection h with h1 h2; rw [h1]
      · intro h; injection h with h1; rw [h1]

/-- Witness for the amended C2 at a concrete conforming upstream reply. -/
theorem analyze_success_body_is_parsed_upstream_witness :
    analyze (Config.mk "tok" (Option.some "k")) (Option.some "tok")
        [("context", PyVal.vInt 7)]
        (Upstream.success (Option.some "\x7b\"emailText\":\"E\",\"htmlDashboard\":\"H\"\x7d")) =
        HResp.json (PyVal.vDict
          [("emailText", PyVal.vStr "E"), ("htmlDashboard", PyVal.vStr "H")]) 200 :=
  (analyze_success_body_is_parsed_upstream (Config.mk "tok" (Option.some "k")) "tok"
    [("context", PyVal.vInt 7)] "\x7b\"emailText\":\"E\",\"htmlDashboard\":\"H\"\x7d"
    (PyVal.vDict [("emailText", PyVal.vStr "E"), ("htmlDashboard", PyVal.vStr "H")])
    rfl rfl rfl rfl).mpr rfl

/-- C3 counterexample: with correct authorization, a body lacking context,
and the API_KEY configuration variable unset, the response is the 500
configuration error, not the claimed 400: the configuration check runs
before the context check. -/
theorem analyze_missing_context_apikey_counterexample :
    analyze (Config.mk "yuKVek24" Option.none) (Option.some "yuKVek24") []
        (Upstream.success Option.none) =
      HResp.json (errObj "Server Configuration Error: API_KEY Missing") 500 ∧
    statusOf (analyze (Config.mk "yuKVek24" Option.none) (Option.some "yuKVek24") []
        (Upstream.success Option.none)) ≠ Option.some 400 :=
  ⟨rfl, by decide⟩

/-- C3 amended: with correct authorization, a set (non-empty) API_KEY and a
body whose JSON object lacks the context key, the response is the 400
validation error, for every remaining server-side condition (any upstream
outcome, any other body fields). -/
theorem analyze_missing_context_400 (cfg : Config) (tok : String)
    (data : List (String × PyVal)) (up : Upstream)
    (htok : tok = cfg.accessToken)
    (hkey : apiKeyFalsy cfg.apiKey = false)
    (hctx : data.lookup "context" = Option.none) :
    analyze cfg (Option.some tok) data up =
      HResp.json (errObj "Data Context Missing") 400 := by
  subst htok
  simp [analyze, hkey, dictGet, hctx, truthy]

/-- Witness for the amended C3: concrete request with no context key,
API_KEY set, exercised at both upstream outcomes. -/
theorem analyze_missing_context_400_witness :
    analyze (Config.mk "tok" (Option.some "k")) (Option.some "tok")
        [("diagnosticMode", PyVal.vBool true)] (Upstream.failure "boom") =
      HResp.json (errObj "Data Context Missing") 400 ∧
    analyze (Config.mk "tok" (Option.some "k")) (Option.some "tok") []
        (Upstream.success (Option.some "\x7b\x7d")) =
      HResp.json (errObj "Data Context Missing") 400 :=
  ⟨analyze_missing_context_400 (Config.mk "tok" (Option.some "k")) "tok"
      [("diagnosticMode", PyVal.vBool true)] (Upstream.failure "boom") rfl rfl rfl,
    analyze_missing_context_400 (Config.mk "tok" (Option.some "k")) "tok" []
      (Upstream.success (Option.some "\x7b\x7d")) rfl rfl rfl⟩

/-- C5 counterexample: an upstream failure in normal mode whose exception
message does not contain 403 produces a client body carrying the raw
exception message (prefixed with Intelligence Failure), so the raw detail
is placed in the client body rather than only in the server log. -/
theorem analyze_upstream_failure_leaks_counterexample :
    analyze (Config.mk "yuKVek24" (Option.some "k")) (Option.some "yuKVek24")
        [("context", PyVal.vStr "x")]
        (Upstream.failure "socket timeout to host 10.0.0.5") =
      HResp.json (errObj "Intelligence Failure: socket timeout to host 10.0.0.5") 500 ∧
    containsSubStr "socket timeout to host 10.0.0.5"
        "Intelligence Failure: socket timeout to host 10.0.0.5" = true :=
  ⟨rfl, rfl⟩

/-- C5 amended: every normal-mode upstream failure yields a handler 500
whose error message is the raw exception message prefixed with
Intelligence Failure, except that a message containing 403 yields the
distinct, more actionable message API Key Invalid or Quota Exceeded; the
raw detail is thus part of the client body in the general case. -/
theorem analyze_upstream_failure_response (cfg : Config) (tok : String)
    (data : List (String × PyVal)) (msg : String)
    (htok : tok = cfg.accessToken)
    (hkey : apiKeyFalsy cfg.apiKey = false)
    (hctx : truthy (dictGet data "context") = true)
    (hdiag : truthy (dictGetD data "diagnosticMode" (PyVal.vBool false)) = false) :
    analyze cfg (Option.some tok) data (Upstream.failure msg) =
      (if containsSubStr "403" msg then
        HResp.json (errObj "API Key Invalid or Quota Exceeded") 500
      else HResp.json (errObj ("Intelligence Failure: " ++ msg)) 500) := by
  subst htok
  simp [analyze, hkey, hctx, hdiag]

/-- Witness for the amended C5 at a 403-bearing and an ordinary message. -/
theorem analyze_upstream_failure_response_witness :
    analyze (Config.mk "tok" (Option.some "k")) (Option.some "tok")
        [("context", PyVal.vStr "c")] (Upstream.failure "HTTP 403 from upstream") =
      HResp.json (errObj "API Key Invalid or Quota Exceeded") 500 ∧
    analyze (Config.mk "tok" (Option.some "k")) (Option.some "tok")
        [("context", PyVal.vStr "c")] (Upstream.failure "connection reset") =
      HResp.json (errObj "Intelligence Failure: connection reset") 500 :=
  ⟨(analyze_upstream_failure_response (Config.mk "tok" (Option.some "k")) "tok"
      [("context", PyVal.vStr "c")] "HTTP 403 from upstream" rfl rfl rfl rfl).trans rfl,
    (analyze_upstream_failure_response (Config.mk "tok" (Option.some "k")) "tok"
      [("context", PyVal.vStr "c")] "connection reset" rfl rfl rfl rfl).trans rfl⟩

/-- C10: with correct authorization and API_KEY set, a context value that
is present but falsy is rejected with the 400 Data Context Missing
response, the same response an absent context (here: the empty body)
receives. -/
theorem analyze_falsy_context_400 (cfg : Config) (tok : String)
    (data : List (String × PyVal)) (up : Upstream)
    (htok : tok = cfg.accessToken)
    (hkey : apiKeyFalsy cfg.apiKey = false)
    (hctx : truthy (dictGet data "context") = false) :
    analyze cfg (Option.some tok) data up =
      HResp.json (errObj "Data Context Missing") 400 ∧
    analyze cfg (Option.some tok) [] up =
      HResp.json (errObj "Data Context Missing") 400 := by
  subst htok
  constructor
  · simp [analyze, hkey, hctx]
  · simp [analyze, hkey, dictGet, truthy]

/-- Witness for C10 across the falsy context shapes: empty dict, empty
list, empty string, zero and false. -/
theorem analyze_falsy_context_400_witness :
    analyze (Config.mk "tok" (Option.some "k")) (Option.some "tok")
        [("context", PyVal.vDict [])] (Upstream.failure "e") =
      HResp.json (errObj "Data Context Missing") 400 ∧
    analyze (Config.mk "tok" (Option.some "k")) (Option.some "tok")
        [("context", PyVal.vList [])] (Upstream.failure "e") =
      HResp.json (errObj "Data Context Missing") 400 ∧
    analyze (Config.mk "tok" (Option.some "k")) (Option.some "tok")
        [("context", PyVal.vStr "")] (Upstream.failure "e") =
      HResp.json (errObj "Data Context Missing") 400 ∧
    analyze (Config.mk "tok" (Option.some "k")) (Option.some "tok")
        [("context", PyVal.vInt 0)] (Upstream.failure "e") =
      HResp.json (errObj "Data Context Missing") 400 ∧
    analyze (Config.mk "tok" (Option.some "k")) (Option.some "tok")
        [("context", PyVal.vBool false)] (Upstream.failure "e") =
      HResp.json (errObj "Data Context Missing") 400 :=
  ⟨(analyze_falsy_context_400 (Config.mk "tok" (Option.some "k")) "tok"
      [("context", PyVal.vDict [])] (Upstream.failure "e") rfl rfl rfl).1,
    (analyze_falsy_context_400 (Config.mk "tok" (Option.some "k")) "tok"
      [("context", PyVal.vList [])] (Upstream.failure "e") rfl rfl rfl).1,
    (analyze_falsy_context_400 (Config.mk "tok" (Option.some "k")) "tok"
      [("context", PyVal.vStr "")] (Upstream.failure "e") rfl rfl rfl).1,
    (analyze_falsy_context_400 (Config.mk "tok" (Option.some "k")) "tok"
      [("context", PyVal.vInt 0)] (Upstream.failure "e") rfl rfl rfl).1,
    (analyze_falsy_context_400 (Config.mk "tok" (Option.some "k")) "tok"
      [("context", PyVal.vBool false)] (Upstream.failure "e") rfl rfl rfl).1⟩

/-- C4: the verify endpoint (modelled from the spec, absent from
src/app.py) returns the valid-true 200 body exactly when the supplied
token equals the configured secret, and the valid-false 401 body exactly
otherwise. -/
theorem verify_token_check (cfg : Config) (data : List (String × PyVal)) :
    (verify cfg data = HResp.json (PyVal.vDict [("valid", PyVal.vBool true)]) 200 ↔
      dictGet data "token" = PyVal.vStr cfg.accessToken) ∧
    (verify cfg data = HResp.json (PyVal.vDict [("valid", PyVal.vBool false)]) 401 ↔
      dictGet data "token" ≠ PyVal.vStr cfg.accessToken) := by
  cases hv : dictGet data "token" with
  | vStr t =>
    by_cases ht : t = cfg.accessToken
    · subst ht
      simp [verify, hv]
    · simp [verify, hv, ht]
  | vNone =>
    simp [verify, hv]
  | vBool b =>
    simp [verify, hv]
  | vInt n =>
    simp [verify, hv]
  | vList xs =>
    simp [verify, hv]
  | vDict fs =>
    simp [verify, hv]

/-- Witness for C4 at a matching and a non-matching concrete token. -/
theorem verify_token_check_witness :
    verify (Config.mk "s3cret" Option.none) [("token", PyVal.vStr "s3cret")] =
      HResp.json (PyVal.vDict [("valid", PyVal.vBool true)]) 200 ∧
    verify (Config.mk "s3cret" Option.none) [("token", PyVal.vStr "nope")] =
      HResp.json (PyVal.vDict [("valid", PyVal.vBool false)]) 401 :=
  ⟨(verify_token_check (Config.mk "s3cret" Option.none)
      [("token", PyVal.vStr "s3cret")]).1.mpr rfl,
    (verify_token_check (Config.mk "s3cret" Option.none)
      [("token", PyVal.vStr "nope")]).2.mpr (by simp [dictGet])⟩

/-- C9: the health endpoint always returns 200 with a body carrying the
status, the static version identifier and uptime_seconds computed as the
truncation of current time minus start time; for two calls after process
start, uptime is monotonically non-decreasing, and calls at least five
seconds apart differ by at least five. -/
theorem health_check_uptime_props (s t1 t2 : ℚ) (h0 : s ≤ t1) (h12 : t1 ≤ t2) :
    health_check s t1 = HResp.json (PyVal.vDict
      [("status", PyVal.vStr "online"),
       ("message", PyVal.vStr "Server is running"),
       ("version", PyVal.vStr SERVER_VERSION),
       ("uptime_seconds", PyVal.vInt (uptimeSeconds s t1))]) 200 ∧
    statusOf (health_check s t1) = Option.some 200 ∧
    uptimeSeconds s t1 ≤ uptimeSeconds s t2 ∧
    (t1 + 5 ≤ t2 → uptimeSeconds s t1 + 5 ≤ uptimeSeconds s t2) := by
  have hA : (0 : ℚ) ≤ t1 - s := by linarith
  have hB : (0 : ℚ) ≤ t2 - s := by linarith
  refine ⟨rfl, rfl, ?_, ?_⟩
  · unfold uptimeSeconds pyTrunc
    rw [if_pos hA, if_pos hB]
    exact Int.floor_le_floor (by linarith)
  · intro h5
    unfold uptimeSeconds pyTrunc
    rw [if_pos hA, if_pos hB]
    have hstep : (⌊(t1 - s) + ((5 : ℤ) : ℚ)⌋ : ℤ) = ⌊t1 - s⌋ + 5 := Int.floor_add_int _ _
    have hmono : (⌊(t1 - s) + ((5 : ℤ) : ℚ)⌋ : ℤ) ≤ ⌊t2 - s⌋ := by
      apply Int.floor_le_floor
      push_cast
      linarith
    omega

/-- Witness for C9 at concrete clock readings five and a half seconds
apart. -/
theorem health_check_uptime_props_witness :
    health_check 2 3 = HResp.json (PyVal.vDict
      [("status", PyVal.vStr "online"),
       ("message", PyVal.vStr "Server is running"),
       ("version", PyVal.vStr SERVER_VERSION),
       ("uptime_seconds", PyVal.vInt (uptimeSeconds 2 3))]) 200 ∧
    statusOf (health_check 2 3) = Option.some 200 ∧
    uptimeSeconds 2 3 ≤ uptimeSeconds 2 (17/2) ∧
    ((3 : ℚ) + 5 ≤ 17/2 → uptimeSeconds 2 3 + 5 ≤ uptimeSeconds 2 (17/2)) :=
  health_check_uptime_props 2 3 (17/2) (by norm_num) (by norm_num)
